import Mathlib

/-!
Verification development for the conductor-agent conversation knowledge base.

The Python sources under `src/` are shallowly embedded below.  Conventions:

* Python strings are Lean `String`s; operations that the Python code performs
  through byte positions (`split`, `strip`, slicing, containment) are
  re-implemented over `String.data` so that closed instances evaluate by
  kernel reduction.
* Python floats are modelled as exact rationals `ℚ`; machine timestamps
  (`datetime`) are modelled by their numeric value, and `fromisoformat` /
  `fromtimestamp` parsing is abstracted to the parse *outcome*
  (`Option ℚ` / `Option ℤ`): `none` stands for a missing or unparseable value.
* Python `dict.get(k, d)` on JSON records is modelled by `Option` fields
  (`none` = key absent) plus `Option.getD`.
* `dict` / `list` truthiness is modelled explicitly (`= ""`, `= []`,
  `Option.isSome`) at each use site, mirroring the source line.
* Metadata dictionaries carried on messages/conversations, which no claim
  constrains, are not modelled.
* The filesystem is modelled as an association list from a path to the parsed
  content found there; `List.lookup path disk = none` models a path that does
  not exist.
-/

/-! ## Character/string primitives (Python `str` operations) -/

/-- Python `str.lower()` (ASCII case folding). -/
def strLower (s : String) : String := String.mk (s.data.map Char.toLower)

/-- Python `str.upper()` (ASCII case folding). -/
def strUpper (s : String) : String := String.mk (s.data.map Char.toUpper)

/-- Python slicing `s[:n]` (by code point). -/
def strTake (n : Nat) (s : String) : String := String.mk (s.data.take n)

/-- Python `str.strip()`: remove leading and trailing whitespace. -/
def stripS (s : String) : String :=
  String.mk (((s.data.dropWhile Char.isWhitespace).reverse.dropWhile Char.isWhitespace).reverse)

/-- Python `str.lstrip('#')`. -/
def lstripHash (s : String) : String := String.mk (s.data.dropWhile (· = '#'))

/-- First line of a file, as read by Python `f.readline()` (without the newline). -/
def firstLine (s : String) : String := String.mk (s.data.takeWhile (· ≠ '\n'))

/-- Python `sep.join(parts)`. -/
def joinSep (sep : String) : List String → String
  | [] => ""
  | [x] => x
  | x :: y :: xs => x ++ sep ++ joinSep sep (y :: xs)

/-- Worker for `splitOnS`: scan the character list, splitting at every
non-overlapping occurrence of the separator `c0 :: srest`, leftmost first.
The fuel argument only serves structural termination; it never runs out when
initialised to the length of the list plus one. -/
def splitGo (c0 : Char) (srest : List Char) : Nat → List Char → List Char → List (List Char)
  | 0, l, acc => [acc.reverse ++ l]
  | _ + 1, [], acc => [acc.reverse]
  | fuel + 1, c :: rest, acc =>
    if c = c0 ∧ srest.isPrefixOf rest then
      acc.reverse :: splitGo c0 srest fuel (rest.drop srest.length) []
    else
      splitGo c0 srest fuel rest (c :: acc)

/-- Python `s.split(sep)` for a non-empty separator (empty strings are kept). -/
def splitOnS (sep s : String) : List String :=
  match sep.data with
  | [] => [s]
  | c0 :: srest => (splitGo c0 srest (s.data.length + 1) s.data []).map String.mk

/-- Worker for `splitFirstS`: find the first occurrence of `c0 :: srest`. -/
def splitFirstGo (c0 : Char) (srest : List Char) : List Char → List Char → Option (List Char × List Char)
  | [], _ => none
  | c :: rest, acc =>
    if c = c0 ∧ srest.isPrefixOf rest then
      some (acc.reverse, rest.drop srest.length)
    else
      splitFirstGo c0 srest rest (c :: acc)

/-- Python `s.split(sep, 1)` when `sep` occurs in `s`: the part before the
first occurrence and the part after it; `none` when `sep` does not occur
(which also decides Python `sep in s`). -/
def splitFirstS (sep s : String) : Option (String × String) :=
  match sep.data with
  | [] => none
  | c0 :: srest =>
    (splitFirstGo c0 srest s.data []).map (fun pr => (String.mk pr.1, String.mk pr.2))

/-- Worker for `strContains`. -/
def containsGo (needle : List Char) : List Char → Bool
  | [] => needle.isPrefixOf []
  | c :: rest => needle.isPrefixOf (c :: rest) || containsGo needle rest

/-- Python `needle in hay` on strings. -/
def strContains (hay needle : String) : Bool := containsGo needle.data hay.data

/-- Lexicographic comparison on character lists (Python string `<=`). -/
def charListLe : List Char → List Char → Bool
  | [], _ => true
  | _ :: _, [] => false
  | c :: cs, d :: ds => if c < d then true else if d < c then false else charListLe cs ds

/-- Python string comparison `a <= b` (lexicographic by code point). -/
def strLeB (a b : String) : Bool := charListLe a.data b.data

/-- Python truthiness chain `a or b or c or ...` over strings (first non-empty,
else the last element, else `""`). -/
def chainOr : List String → String
  | [] => ""
  | [x] => x
  | x :: y :: xs => if x = "" then chainOr (y :: xs) else x

/-! ## Stable sort (Python `list.sort`) -/

/-- Insert `x` after every element `y` of an already sorted list with
`le y x`; together with `sortStable` this is a stable insertion sort, the
specification of Python's stable `list.sort(key=...)`. -/
def insertSorted (le : α → α → Bool) (x : α) : List α → List α
  | [] => [x]
  | y :: ys => if le y x then y :: insertSorted le x ys else x :: y :: ys

/-- Stable sort by the boolean relation `le` (Python `list.sort`). -/
def sortStable (le : α → α → Bool) (l : List α) : List α :=
  l.foldl (fun acc x => insertSorted le x acc) []

/-! ## Normalized conversation model (`src/data_processors/base_processor.py`) -/

/-- Message role in a conversation (`MessageRole`). -/
inductive MessageRole where
  | user
  | assistant
  | system
deriving DecidableEq, Repr

/-- Supported AI platforms (`Platform`). -/
inductive ChatPlatform where
  | chatgpt
  | gemini
  | grok
  | antigravity
deriving DecidableEq, Repr

/-- Standardized message format (`Message`); the timestamp is the numeric
value of the Python `datetime`, `none` when absent. -/
structure Message where
  role : MessageRole
  content : String
  timestamp : Option ℚ
deriving DecidableEq, Repr

/-- Standardized conversation format (`Conversation`). -/
structure Conversation where
  conversation_id : String
  platform : ChatPlatform
  title : String
  messages : List Message
  created_at : Option ℚ
  updated_at : Option ℚ
deriving DecidableEq, Repr

/-- Extracted code snippet (`CodeSnippet`). -/
structure CodeSnippet where
  code : String
  language : String
  context : String
  source_conversation_id : String
  platform : ChatPlatform
deriving DecidableEq, Repr

/-! ## Code snippet extractor (`BaseProcessor.extract_code_snippets`)

The Python code matches the regex `r'```(\w+)?\n(.*?)```'` with `re.DOTALL`
over each message content (`re.findall`).  The functions below implement that
pattern directly: an opening triple backtick, an optional maximal word-char
run that must be followed by a newline, then the shortest content up to the
next triple backtick.  `\w` is modelled for ASCII. -/

/-- ASCII model of the regex class `\w`. -/
def isWordChar (c : Char) : Bool := c.isAlphanum || c = '_'

/-- Split the character list at the first closing triple backtick: returns
the content before it and the remainder after it, `none` when there is no
closing fence (so the non-greedy `(.*?)```` part of the regex fails). -/
def splitOnClose : List Char → Option (List Char × List Char)
  | [] => none
  | '`' :: '`' :: '`' :: rest => some ([], rest)
  | c :: rest => (splitOnClose rest).map (fun pr => (c :: pr.1, pr.2))

/-- Try to match `` ```(\w+)?\n(.*?)``` `` at the head of the list, returning
the language tag, the code body, and the unconsumed remainder. -/
def matchFence : List Char → Option (String × String × List Char)
  | '`' :: '`' :: '`' :: t =>
    match t.span isWordChar with
    | (run, '\n' :: body) =>
      (splitOnClose body).map (fun pr => (String.mk run, String.mk pr.1, pr.2))
    | _ => none
  | _ => none

/-- `re.findall` over the pattern: scan left to right, at each position try a
match; on success continue after the consumed match, otherwise advance one
character.  The fuel argument only serves structural termination; every step
consumes at least one character, so fuel `length` never runs out. -/
def findAllFuel : Nat → List Char → List (String × String)
  | 0, _ => []
  | _ + 1, [] => []
  | fuel + 1, c :: rest =>
    match matchFence (c :: rest) with
    | some (lang, code, after) => (lang, code) :: findAllFuel fuel after
    | none => findAllFuel fuel rest

/-- All `(language, code)` regex matches in a message content, in order. -/
def findCodeBlocks (s : String) : List (String × String) :=
  findAllFuel s.data.length s.data

/-- One `CodeSnippet` built from one regex match
(`language or "unknown"`, `code.strip()`, `context=f"From: {title}"`). -/
def snippetOfMatch (conv : Conversation) (pr : String × String) : CodeSnippet :=
  ⟨stripS pr.2, if pr.1 = "" then "unknown" else pr.1,
   "From: " ++ conv.title, conv.conversation_id, conv.platform⟩

/-- `BaseProcessor.extract_code_snippets`: scan each message in order,
appending one snippet per regex match. -/
def extract_code_snippets (conv : Conversation) : List CodeSnippet :=
  conv.messages.flatMap (fun msg => (findCodeBlocks msg.content).map (snippetOfMatch conv))

/-! ## ChatGPT processor (`src/data_processors/chatgpt_processor.py`)

`datetime.fromtimestamp` is modelled as the identity on the numeric epoch
value.  A node's `message` value is `none` when the key is absent, null, or
the falsy empty dict (`node.get('message')` truthiness).  The
`author`/`role` lookup chain `msg_data.get('author', {}).get('role', '')`
is modelled by a single defaulted string field. -/

/-- One message node of a ChatGPT `mapping` tree. -/
structure CGMsgData where
  author_role : String
  parts : List String
  create_time : Option ℚ
deriving DecidableEq, Repr

/-- One node of the `mapping` dict. -/
structure CGNode where
  message : Option CGMsgData
deriving DecidableEq, Repr

/-- One record of the ChatGPT export list.  `mapping` keeps the dict's
insertion order, as Python iteration does. -/
structure CGRecord where
  idKey : Option String
  conversationIdKey : Option String
  titleKey : Option String
  create_time : Option ℚ
  update_time : Option ℚ
  mapping : List (String × CGNode)
deriving DecidableEq, Repr

/-- `ChatGPTProcessor._parse_message`: map the author role (default
`SYSTEM`), join the non-empty content parts with newlines, and drop the
message when the joined content is empty. -/
def chatgpt_parse_message (m : CGMsgData) : Option Message :=
  let role := if m.author_role = "user" then MessageRole.user
    else if m.author_role = "assistant" then MessageRole.assistant
    else MessageRole.system
  let content := joinSep "\n" (m.parts.filter (· ≠ ""))
  if content = "" then none
  else some ⟨role, content, m.create_time⟩

/-- `ChatGPTProcessor._parse_conversation`: collect every mapping node that
carries a message, sort the flat set by `create_time` (missing key counts as
`0`, Python sort is stable), and parse each message.  The `except` arm of the
source only fires on malformed dynamic values, which the typed record rules
out, so the parse is total here. -/
def chatgpt_parse_conversation (r : CGRecord) : Conversation :=
  let conversation_id := r.idKey.getD (r.conversationIdKey.getD "")
  let title := r.titleKey.getD "Untitled Conversation"
  let message_nodes := r.mapping.filterMap (fun nd => nd.2.message)
  let sorted := sortStable
    (fun a b => decide (a.create_time.getD 0 ≤ b.create_time.getD 0)) message_nodes
  let messages := sorted.filterMap chatgpt_parse_message
  ⟨conversation_id, ChatPlatform.chatgpt, title, messages, r.create_time, r.update_time⟩

/-- The per-record loop of `ChatGPTProcessor.process`: each parsed record is
appended (`if conversation:` is a `None` check, and a dataclass instance is
always truthy). -/
def chatgpt_process_records (records : List CGRecord) : List Conversation :=
  records.map chatgpt_parse_conversation

/-- `ChatGPTProcessor.process`: the export file is opened with `open` /
`zipfile.ZipFile` with no existence guard, so a missing path raises
`FileNotFoundError` (the `.error` case); otherwise its record list is
processed. -/
def chatgpt_process (disk : List (String × List CGRecord)) (path : String) :
    Except Unit (List Conversation) :=
  match List.lookup path disk with
  | none => Except.error ()
  | some records => Except.ok (chatgpt_process_records records)

/-! ## Gemini processor (`src/data_processors/gemini_processor.py`)

Only the JSON route is modelled; the HTML route delegates its parsing to the
external BeautifulSoup library.  `datetime.fromisoformat` on the record's
`created_at` string is abstracted to the parse outcome. -/

/-- One entry of a Gemini JSON `messages`/`history` array; each `Option`
field is `none` when the key is absent. -/
structure GeminiJsonMsg where
  roleKey : Option String
  authorKey : Option String
  contentKey : Option String
  textKey : Option String
deriving DecidableEq, Repr

/-- A Gemini JSON conversation file. -/
structure GeminiJsonData where
  idKey : Option String
  titleKey : Option String
  nameKey : Option String
  createdAtKey : Option ℚ
  messagesKey : Option (List GeminiJsonMsg)
  historyKey : Option (List GeminiJsonMsg)
deriving DecidableEq, Repr

/-- The role string of a Gemini JSON message:
`msg_data.get('role', msg_data.get('author', 'user'))`. -/
def gemini_role_str (m : GeminiJsonMsg) : String :=
  m.roleKey.getD (m.authorKey.getD "user")

/-- The message loop body of `GeminiProcessor._process_json_file`: a role
other than `"user"` (case-insensitively) becomes `ASSISTANT`; a message whose
content is empty is dropped; messages carry the conversation's `created_at`. -/
def gemini_parse_msg (created_at : Option ℚ) (m : GeminiJsonMsg) : Option Message :=
  let role := if strLower (gemini_role_str m) = "user" then MessageRole.user
    else MessageRole.assistant
  let content := m.contentKey.getD (m.textKey.getD "")
  if content = "" then none
  else some ⟨role, content, created_at⟩

/-- `GeminiProcessor._process_json_file` (given the file's stem): a file
producing zero messages yields no Conversation. -/
def gemini_process_json_file (stem : String) (d : GeminiJsonData) : Option Conversation :=
  let conversation_id := d.idKey.getD stem
  let title := d.titleKey.getD (d.nameKey.getD "Untitled Conversation")
  let created_at := d.createdAtKey
  let messages_data := d.messagesKey.getD (d.historyKey.getD [])
  let messages := messages_data.filterMap (gemini_parse_msg created_at)
  if messages = [] then none
  else some ⟨conversation_id, ChatPlatform.gemini, title, messages, created_at, none⟩

/-- The directory branch of `GeminiProcessor.process` over the JSON files
found by `rglob` (`disk` maps a directory path to its recursively globbed
`(stem, data)` files).  A path that is neither a file nor an existing
directory globs to nothing, so the result is empty.  Files whose name
contains `manifest` or `metadata` are skipped. -/
def gemini_process (disk : List (String × List (String × GeminiJsonData)))
    (path : String) : List Conversation :=
  match List.lookup path disk with
  | none => []
  | some files =>
    (files.filter (fun f =>
        !(strContains (strLower f.1) "manifest" || strContains (strLower f.1) "metadata"))).filterMap
      (fun f => gemini_process_json_file f.1 f.2)

/-! ## Grok processor (`src/data_processors/grok_processor.py`)

`_parse_timestamp` always produces a datetime (falling back to the current
time), so timestamp fields are abstracted to their numeric parse outcome;
`none` models an absent key.  ZIP extraction is abstracted: `disk` maps the
archive path to the `(filename, data)` JSON files found under the extraction
directory. -/

/-- One entry of a Grok message array. -/
structure GrokMsgData where
  roleKey : Option String
  senderKey : Option String
  typeKey : Option String
  contentKey : Option String
  textKey : Option String
  messageKey : Option String
  dataKey : Option String
  timestampKey : Option ℚ
  createdAtKey : Option ℚ
deriving DecidableEq, Repr

/-- One Grok conversation JSON file.  List-valued keys default to `[]` when
absent, matching `data.get('messages', [])`. -/
structure GrokData where
  idKey : Option String
  conversationIdKey : Option String
  titleKey : Option String
  nameKey : Option String
  promptKey : Option String
  responseKey : Option String
  createdAtKey : Option ℚ
  timestampKey : Option ℚ
  updatedAtKey : Option ℚ
  messagesKey : List GrokMsgData
  historyKey : List GrokMsgData
  chatKey : List GrokMsgData
deriving DecidableEq, Repr

/-- `GrokProcessor._parse_message`: role from
`role`/`sender`/`type` (default `user`) through the lowercase role table,
content from the truthiness chain
`content or text or message or str(data.get('data', ''))`. -/
def grok_parse_message (m : GrokMsgData) : Option Message :=
  let role_str := m.roleKey.getD (m.senderKey.getD (m.typeKey.getD "user"))
  let role :=
    if strLower role_str = "user" ∨ strLower role_str = "human" then MessageRole.user
    else if strLower role_str = "assistant" ∨ strLower role_str = "ai" ∨
        strLower role_str = "grok" then MessageRole.assistant
    else if strLower role_str = "system" then MessageRole.system
    else MessageRole.user
  let content := chainOr
    [m.contentKey.getD "", m.textKey.getD "", m.messageKey.getD "", m.dataKey.getD ""]
  if content = "" then none
  else
    let timestamp := match m.timestampKey with
      | some t => some t
      | none => m.createdAtKey
    some ⟨role, content, timestamp⟩

/-- `GrokProcessor._parse_conversation`: id from `id`/`conversation_id`/the
filename, title from the truthiness chain
`title or name or prompt[:50] or 'Untitled Conversation'`, messages from the
first non-empty of `messages`/`history`/`chat`, with a single
prompt/response pair as fallback; a conversation with no messages is
dropped. -/
def grok_parse_conversation (d : GrokData) (filename : String) : Option Conversation :=
  let conversation_id := d.idKey.getD (d.conversationIdKey.getD filename)
  let title := chainOr
    [d.titleKey.getD "", d.nameKey.getD "", strTake 50 (d.promptKey.getD ""),
     "Untitled Conversation"]
  let created_at := match d.createdAtKey with
    | some t => some t
    | none => d.timestampKey
  let updated_at := d.updatedAtKey
  let messages_data :=
    if d.messagesKey ≠ [] then d.messagesKey
    else if d.historyKey ≠ [] then d.historyKey
    else d.chatKey
  let parsed := messages_data.filterMap grok_parse_message
  let messages :=
    if parsed = [] ∧ d.promptKey.isSome ∧ d.responseKey.isSome then
      [⟨MessageRole.user, d.promptKey.getD "", created_at⟩,
       ⟨MessageRole.assistant, d.responseKey.getD "", created_at⟩]
    else parsed
  if messages = [] then none
  else some ⟨conversation_id, ChatPlatform.grok, title, messages, created_at, updated_at⟩

/-- `GrokProcessor.process`: a missing input path yields `[]`
(`if not input_path.exists(): return []`); otherwise every extracted JSON
file is parsed, skipping names containing `manifest`/`metadata`/`account`. -/
def grok_process (disk : List (String × List (String × GrokData)))
    (path : String) : List Conversation :=
  match List.lookup path disk with
  | none => []
  | some files =>
    (files.filter (fun f =>
        !(strContains (strLower f.1) "manifest" || strContains (strLower f.1) "metadata" ||
          strContains (strLower f.1) "account"))).filterMap
      (fun f => grok_parse_conversation f.2 f.1)

/-! ## Antigravity processor (`src/data_processors/antigravity_processor.py`)

A conversation directory is modelled by the contents the processor reads:
the three artifact markdown files (`none` when the file does not exist), the
system log directory with `overview.txt` and the `task_*.txt` files, and the
directory's filesystem timestamps. -/

/-- The contents of one Antigravity conversation directory. -/
structure AgDir where
  name : String
  taskMd : Option String
  planMd : Option String
  walkthroughMd : Option String
  hasLogsDir : Bool
  overviewTxt : Option String
  taskLogs : List (String × String)
  ctime : ℚ
  mtime : ℚ
deriving DecidableEq, Repr

/-- Title extraction of `_process_conversation_dir`: the first line of
`task.md` (else `implementation_plan.md`) when it starts with `#`,
hash-stripped, trimmed and truncated to 100 characters. -/
def ag_title (d : AgDir) : String :=
  let ofContent := fun (c : String) =>
    let fl := stripS (firstLine c)
    if fl.data.take 1 = ['#'] then strTake 100 (stripS (lstripHash fl))
    else "Untitled Conversation"
  match d.taskMd with
  | some c => ofContent c
  | none =>
    match d.planMd with
    | some c => ofContent c
    | none => "Untitled Conversation"

/-- `AntigravityProcessor._parse_overview_file`: split on `USER_REQUEST:`,
discard the first segment, and split each remaining section at the first
`ASSISTANT:` into a user and an assistant message (empty halves dropped). -/
def ag_parse_overview (content : String) : List Message :=
  let sections := splitOnS "USER_REQUEST:" content
  sections.tail.flatMap (fun sec =>
    match splitFirstS "ASSISTANT:" sec with
    | some pr =>
      (if stripS pr.1 = "" then [] else [⟨MessageRole.user, stripS pr.1, none⟩]) ++
      (if stripS pr.2 = "" then [] else [⟨MessageRole.assistant, stripS pr.2, none⟩])
    | none =>
      if stripS sec = "" then [] else [⟨MessageRole.user, stripS sec, none⟩])

/-- `AntigravityProcessor._parse_task_log`: a non-blank task log becomes one
assistant message tagged with its filename. -/
def ag_parse_task_log (filename content : String) : List Message :=
  if stripS content = "" then []
  else [⟨MessageRole.assistant, "[Task Log: " ++ filename ++ "]\n\n" ++ content, none⟩]

/-- The artifact loop of `_process_conversation_dir`: each existing,
non-blank artifact file becomes one assistant message. -/
def ag_artifact_msgs (d : AgDir) : List Message :=
  [("task.md", d.taskMd), ("implementation_plan.md", d.planMd),
   ("walkthrough.md", d.walkthroughMd)].flatMap (fun pr =>
    match pr.2 with
    | some content =>
      if stripS content = "" then []
      else [⟨MessageRole.assistant, "[Artifact: " ++ pr.1 ++ "]\n\n" ++ content, none⟩]
    | none => [])

/-- `AntigravityProcessor._process_conversation_dir`: overview messages, then
the task logs sorted by filename, then the artifact messages; a directory
with no reconstructed messages is dropped. -/
def ag_process_dir (d : AgDir) : Option Conversation :=
  let logMsgs :=
    if d.hasLogsDir then
      (match d.overviewTxt with
        | some c => ag_parse_overview c
        | none => []) ++
      (sortStable (fun a b => strLeB a.1 b.1) d.taskLogs).flatMap
        (fun pr => ag_parse_task_log pr.1 pr.2)
    else []
  let messages := logMsgs ++ ag_artifact_msgs d
  if messages = [] then none
  else some ⟨d.name, ChatPlatform.antigravity, ag_title d, messages, some d.ctime, some d.mtime⟩

/-- `AntigravityProcessor.process`: a missing input path yields `[]`
(`if not input_path.exists(): return []`); otherwise each subdirectory whose
name is longer than 30 characters is processed. -/
def antigravity_process (disk : List (String × List AgDir)) (path : String) :
    List Conversation :=
  match List.lookup path disk with
  | none => []
  | some dirs => (dirs.filter (fun d => d.name.length > 30)).filterMap ag_process_dir

/-! ## Embedding generator (`src/knowledge_base/embeddings.py`)

`count_tokens` uses tiktoken when available and otherwise the character
heuristic; the chunking and cache functions are therefore parameterised over
an arbitrary token counter `tok`, and `count_tokens` below is the heuristic
branch. -/

/-- The heuristic branch of `EmbeddingGenerator.count_tokens`:
`len(text) // 4`. -/
def count_tokens (s : String) : Nat := s.length / 4

/-- Total token count of a paragraph list. -/
def sumTok (tok : String → Nat) (l : List String) : Nat := (l.map tok).sum

/-- The backward walk of the overlap-seeding loop in `chunk_text` (lines
224-232): traverse the closed chunk from its end, keeping paragraphs while
the running overlap token total stays within the budget. -/
def takeOverlapRev (tok : String → Nat) (ovl : Nat) : List String → Nat → List String
  | [], _ => []
  | p :: rest, acc =>
    if acc + tok p ≤ ovl then p :: takeOverlapRev tok ovl rest (acc + tok p)
    else []

/-- The paragraphs carried from a closed chunk into the next one
(`overlap_paras`), in original order. -/
def takeOverlap (tok : String → Nat) (ovl : Nat) (chunk : List String) : List String :=
  (takeOverlapRev tok ovl chunk.reverse 0).reverse

/-- One iteration of the paragraph loop of `chunk_text`, on the state
`(chunks, current_chunk, current_tokens)`; chunks are kept as paragraph
lists.  After seeding, `current_tokens` is the overlap loop's
`overlap_tokens`, which is exactly the token sum of the seed. -/
def chunkStep (tok : String → Nat) (chunk_size ovl : Nat)
    (st : List (List String) × List String × Nat) (para : String) :
    List (List String) × List String × Nat :=
  let para_tokens := tok para
  let st1 :=
    if st.2.2 + para_tokens > chunk_size ∧ st.2.1 ≠ [] then
      let seed := takeOverlap tok ovl st.2.1
      (st.1 ++ [st.2.1], seed, sumTok tok seed)
    else st
  (st1.1, st1.2.1 ++ [para], st1.2.2 + para_tokens)

/-- `EmbeddingGenerator.chunk_text` with the chunks kept as paragraph lists:
fold the paragraph loop over `text.split('\n\n')` and append the final
non-empty chunk. -/
def chunkParas (tok : String → Nat) (text : String) (chunk_size ovl : Nat) :
    List (List String) :=
  let st := (splitOnS "\n\n" text).foldl (chunkStep tok chunk_size ovl) ([], [], 0)
  if st.2.1 ≠ [] then st.1 ++ [st.2.1] else st.1

/-- One iteration of the paragraph loop of `chunk_text` as written in the
source, where a chunk is joined with `'\n\n'` at the moment it is closed. -/
def chunkStepS (tok : String → Nat) (chunk_size ovl : Nat)
    (st : List String × List String × Nat) (para : String) :
    List String × List String × Nat :=
  let para_tokens := tok para
  let st1 :=
    if st.2.2 + para_tokens > chunk_size ∧ st.2.1 ≠ [] then
      let seed := takeOverlap tok ovl st.2.1
      (st.1 ++ [joinSep "\n\n" st.2.1], seed, sumTok tok seed)
    else st
  (st1.1, st1.2.1 ++ [para], st1.2.2 + para_tokens)

/-- `EmbeddingGenerator.chunk_text`: split on blank lines, run the paragraph
loop, and append the final non-empty chunk. -/
def chunk_text (tok : String → Nat) (text : String) (chunk_size ovl : Nat) :
    List String :=
  let st := (splitOnS "\n\n" text).foldl (chunkStepS tok chunk_size ovl) ([], [], 0)
  if st.2.1 ≠ [] then st.1 ++ [joinSep "\n\n" st.2.1] else st.1

/-- The largest token count of any single paragraph of `text`. -/
def maxParaTok (tok : String → Nat) (text : String) : Nat :=
  ((splitOnS "\n\n" text).map tok).foldr max 0

/-- The embedding cache plus the count of embedding-provider calls made so
far.  The cache key `md5(f"{model}:{text}")` is abstracted to the hashed
content itself, and the durable key → vector file store to an association
list where a later write shadows an earlier one. -/
structure EmbState where
  cache : List (String × List ℚ)
  calls : Nat

/-- `EmbeddingGenerator._get_cache_key`. -/
def cache_key (model text : String) : String := model ++ ":" ++ text

/-- `EmbeddingGenerator._get_cached_embedding` combined with the caller's
`if cached_embedding:` truthiness test: a stored empty vector (or a missing
or unreadable cache file, both modelled by an absent entry) counts as a
miss. -/
def cachedVec (cache : List (String × List ℚ)) (key : String) : Option (List ℚ) :=
  match List.lookup key cache with
  | some v => if v = [] then none else some v
  | none => none

/-- The cache-checking first loop of `generate_embeddings`: produce the
placeholder list (`some` = cache hit) and the `(index, text)` pairs still to
be embedded. -/
def embedScan (model : String) (use_cache : Bool) (cache : List (String × List ℚ)) :
    List String → Nat → List (Option (List ℚ)) × List (Nat × String)
  | [], _ => ([], [])
  | t :: ts, i =>
    let rest := embedScan model use_cache cache ts (i + 1)
    if use_cache then
      match cachedVec cache (cache_key model t) with
      | some v => (some v :: rest.1, rest.2)
      | none => (none :: rest.1, (i, t) :: rest.2)
    else (none :: rest.1, (i, t) :: rest.2)

/-- The Google-branch second loop of `generate_embeddings`: embed each miss
with one provider call, write the vector back at its original position, and
cache it.  (The OpenAI fallback batches the same misses into one request;
the per-text Google path is the primary branch modelled here.) -/
def embedMisses (emb : String → List ℚ) (model : String) (use_cache : Bool)
    (misses : List (Nat × String))
    (st : List (Option (List ℚ)) × List (String × List ℚ) × Nat) :
    List (Option (List ℚ)) × List (String × List ℚ) × Nat :=
  misses.foldl (fun acc pr =>
    let v := emb pr.2
    (acc.1.set pr.1 (some v),
     if use_cache then (cache_key model pr.2, v) :: acc.2.1 else acc.2.1,
     acc.2.2 + 1)) st

/-- `EmbeddingGenerator.generate_embeddings`, with the remote provider
abstracted as the function `emb`.  Every placeholder is filled by the second
loop, so the final `getD []` rendering is total in practice. -/
def generate_embeddings (emb : String → List ℚ) (model : String)
    (texts : List String) (use_cache : Bool) (st : EmbState) :
    List (List ℚ) × EmbState :=
  let scanned := embedScan model use_cache st.cache texts 0
  let filled := embedMisses emb model use_cache scanned.2 (scanned.1, st.cache, st.calls)
  (filled.1.map (fun o => o.getD []), ⟨filled.2.1, filled.2.2⟩)

/-! ## Retriever (`src/knowledge_base/retrieval.py`)

A vector-store hit is the slice of the store's parallel result arrays at one
index; `created_at` metadata is abstracted to its `fromisoformat` parse
outcome, at day granularity (`(now - created_at).days` becomes integer
subtraction).  Scores are exact rationals. -/

/-- One raw vector-store hit. -/
structure RawHit where
  document : String
  platform : String
  title : String
  created_at : Option ℤ
  distance : ℚ
  id : String
deriving DecidableEq, Repr

/-- One formatted search result. -/
structure SearchResult where
  content : String
  platform : String
  title : String
  created_at : Option ℤ
  score : ℚ
  id : String
deriving DecidableEq, Repr

/-- The result-formatting loop of `search_conversations`:
`score = 1 - distance`. -/
def formatResults (hits : List RawHit) : List SearchResult :=
  hits.map (fun h => ⟨h.document, h.platform, h.title, h.created_at, 1 - h.distance, h.id⟩)

/-- The per-candidate score adjustment of `_rerank_results`: a candidate
without a parseable `created_at` keeps its score; otherwise
`days_old = (now - created_at).days`, `recency_boost = max(0, 1 - days_old/365)`
and the score is multiplied by `0.7 + 0.3 * recency_boost`. -/
def rerank_score (now : ℤ) (r : SearchResult) : ℚ :=
  match r.created_at with
  | none => r.score
  | some c =>
    let days_old : ℤ := now - c
    let recency_boost : ℚ := max 0 (1 - (days_old : ℚ) / 365)
    r.score * (7/10 + 3/10 * recency_boost)

/-- A candidate with its adjusted score (only the `score` field changes). -/
def adjustResult (now : ℤ) (r : SearchResult) : SearchResult :=
  ⟨r.content, r.platform, r.title, r.created_at, rerank_score now r, r.id⟩

/-- `ConversationRetriever._rerank_results`: adjust every score, then sort
by adjusted score descending (Python's stable `sort` with `reverse=True`). -/
def rerank_results (now : ℤ) (results : List SearchResult) : List SearchResult :=
  sortStable (fun a b => decide (b.score ≤ a.score)) (results.map (adjustResult now))

/-- `ConversationRetriever.search_conversations` downstream of the
vector-store query: format the `2n` raw hits, re-rank, and keep the first
`n`. -/
def search_conversations (now : ℤ) (hits : List RawHit) (n : Nat) : List SearchResult :=
  (rerank_results now (formatResults hits)).take n

/-- One context block of `get_context_for_query`:
`f"[Source: {platform.upper()} - {title}]\n{content}\n"`. -/
def formatBlock (r : SearchResult) : String :=
  "[Source: " ++ strUpper r.platform ++ " - " ++ r.title ++ "]\n" ++ r.content ++ "\n"

/-- The block-accumulating loop of `get_context_for_query`: stop (`break`)
before the first block whose `len // 4` estimate would push the running
total past `max_tokens`. -/
def contextParts (max_tokens : Nat) : List SearchResult → Nat → List String
  | [], _ => []
  | r :: rest, total =>
    let formatted := formatBlock r
    let estimated := formatted.length / 4
    if total + estimated > max_tokens then []
    else formatted :: contextParts max_tokens rest (total + estimated)

/-- `ConversationRetriever.get_context_for_query` downstream of the search:
join the accepted blocks with `"\n---\n\n"`, or return the sentinel when
none fit. -/
def get_context_for_query (results : List SearchResult) (max_tokens : Nat) : String :=
  let parts := contextParts max_tokens results 0
  if parts = [] then "No relevant context found."
  else joinSep "\n---\n\n" parts

/-- Sum of the per-block `len // 4` estimates of a block list. -/
def sumEst (parts : List String) : Nat := (parts.map (fun s => s.length / 4)).sum

/-! ## Concrete inputs used by witnesses and counterexamples -/

/-- A 20-character paragraph (5 tokens under the heuristic). -/
def p1ex : String := "aaaaaaaaaaaaaaaaaaaa"

/-- A 32-character paragraph (8 tokens under the heuristic). -/
def p2ex : String := "bbbbbbbbbbbbbbbbbbbbbbbbbbbbbbbb"

/-- The two paragraphs joined by a blank line. -/
def textEx : String := p1ex ++ "\n\n" ++ p2ex

/-- A ChatGPT message node. -/
def cgMsg (r p : String) (t : ℚ) : CGMsgData := ⟨r, [p], some t⟩

/-- A ChatGPT export record with three valid message nodes whose
`create_time` values arrive out of order. -/
def cgRec1 : CGRecord :=
  ⟨some "c1", none, some "T1", none, none,
   [("n1", ⟨some (cgMsg "user" "a" 3)⟩), ("n2", ⟨some (cgMsg "assistant" "b" 1)⟩),
    ("n3", ⟨some (cgMsg "user" "c" 2)⟩)]⟩

/-- A ChatGPT export record whose single `mapping` node carries no
`message` key. -/
def cgRec2 : CGRecord := ⟨some "c2", none, some "T2", none, none, [("n1", ⟨none⟩)]⟩

/-- A Grok conversation file with no message array and a prompt/response
pair. -/
def gdEx : GrokData :=
  ⟨none, none, none, none, some "hello", some "world", none, none, none, [], [], []⟩

/-- The conversation `gdEx` parses to. -/
def gdExConv : Conversation :=
  ⟨"f.json", ChatPlatform.grok, "hello",
   [⟨MessageRole.user, "hello", none⟩, ⟨MessageRole.assistant, "world", none⟩],
   none, none⟩

/-- A Gemini JSON file with one system-labelled message. -/
def gjEx : GeminiJsonData :=
  ⟨none, some "G", none, none, some [⟨some "system", none, some "hi", none⟩], none⟩

/-- The conversation `gjEx` parses to. -/
def gjExConv : Conversation :=
  ⟨"s", ChatPlatform.gemini, "G", [⟨MessageRole.assistant, "hi", none⟩], none, none⟩

/-- An Antigravity conversation directory with an overview log, two task
logs and one artifact. -/
def agEx : AgDir :=
  ⟨"0123456789012345678901234567890X", some "# My Title\nbody", none, none, true,
   some "noise USER_REQUEST: hi ASSISTANT: yo",
   [("task_2.txt", "two"), ("task_1.txt", "one")], 5, 6⟩

/-- The conversation `agEx` parses to. -/
def agExConv : Conversation :=
  ⟨"0123456789012345678901234567890X", ChatPlatform.antigravity, "My Title",
   [⟨MessageRole.user, "hi", none⟩, ⟨MessageRole.assistant, "yo", none⟩,
    ⟨MessageRole.assistant, "[Task Log: task_1.txt]\n\none", none⟩,
    ⟨MessageRole.assistant, "[Task Log: task_2.txt]\n\ntwo", none⟩,
    ⟨MessageRole.assistant, "[Artifact: task.md]\n\n# My Title\nbody", none⟩],
   some 5, some 6⟩

/-- A search result whose context block is 16 characters long (4 estimated
tokens). -/
def rTiny : SearchResult := ⟨"x", "", "", none, 0, "i"⟩

/-- A candidate whose `created_at` lies 365 days in the future of `now = 0`. -/
def rFut : SearchResult := ⟨"d", "p", "t", some 365, 1, "i"⟩

/-- A candidate created at day 0, scored 1. -/
def rPast : SearchResult := ⟨"d", "p", "t", some 0, 1, "i"⟩

/-- A conversation titled `T` whose only message holds one tagged code
fence. -/
def convT : Conversation :=
  ⟨"id1", ChatPlatform.chatgpt, "T",
   [⟨MessageRole.user, "intro\n```python\nprint(1)\n```\ntail", none⟩], none, none⟩

/-- A conversation whose text contains a tagged and an untagged code
fence. -/
def convT2 : Conversation :=
  ⟨"id2", ChatPlatform.gemini, "T2",
   [⟨MessageRole.user, "a\n```python\nprint(1)\n```\nb\n```\nplain\n```\nc", none⟩],
   none, none⟩

/-- A one-vector embedding provider used by the cache witness. -/
def embWit : String → List ℚ := fun _ => [1]

/-! ## Helper lemmas -/

theorem insertSorted_perm (le : α → α → Bool) (x : α) (l : List α) :
    (insertSorted le x l).Perm (x :: l) := by
  induction l with
  | nil => simp [insertSorted]
  | cons y ys ih =>
    simp only [insertSorted]
    split
    · exact ((ih.cons y).trans (List.Perm.swap x y ys))
    · exact List.Perm.refl _

theorem sortStable_foldl_perm (le : α → α → Bool) :
    ∀ (l acc : List α), (l.foldl (fun acc x => insertSorted le x acc) acc).Perm (l ++ acc) := by
  intro l
  induction l with
  | nil => intro acc; simp
  | cons x xs ih =>
    intro acc
    have h1 := ih (insertSorted le x acc)
    have h2 := List.Perm.append_left xs (insertSorted_perm le x acc)
    have h3 : (xs ++ (x :: acc)).Perm (x :: (xs ++ acc)) := List.perm_middle
    exact (h1.trans h2).trans h3

theorem sortStable_perm (le : α → α → Bool) (l : List α) :
    (sortStable le l).Perm l := by
  simpa using sortStable_foldl_perm le l []

theorem sumTok_append (tok : String → Nat) (l₁ l₂ : List String) :
    sumTok tok (l₁ ++ l₂) = sumTok tok l₁ + sumTok tok l₂ := by
  simp [sumTok]

theorem sumTok_reverse (tok : String → Nat) (l : List String) :
    sumTok tok l.reverse = sumTok tok l := by
  simp [sumTok, List.sum_reverse]

theorem takeOverlapRev_exists_append (tok : String → Nat) (ovl : Nat) :
    ∀ (l : List String) (acc : Nat), ∃ u, takeOverlapRev tok ovl l acc ++ u = l := by
  intro l
  induction l with
  | nil => intro acc; exact ⟨[], rfl⟩
  | cons p rest ih =>
    intro acc
    simp only [takeOverlapRev]
    split
    · obtain ⟨u, hu⟩ := ih (acc + tok p)
      exact ⟨u, by simp [hu]⟩
    · exact ⟨p :: rest, rfl⟩

theorem takeOverlap_suffix (tok : String → Nat) (ovl : Nat) (chunk : List String) :
    takeOverlap tok ovl chunk <:+ chunk := by
  obtain ⟨u, hu⟩ := takeOverlapRev_exists_append tok ovl chunk.reverse 0
  refine ⟨u.reverse, ?_⟩
  have := congrArg List.reverse hu
  simpa [takeOverlap, List.reverse_append] using this

theorem takeOverlapRev_sum (tok : String → Nat) (ovl : Nat) :
    ∀ (l : List String) (acc : Nat),
      acc + sumTok tok (takeOverlapRev tok ovl l acc) ≤ max acc ovl := by
  intro l
  induction l with
  | nil => intro acc; simp [takeOverlapRev, sumTok, Nat.le_max_left]
  | cons p rest ih =>
    intro acc
    simp only [takeOverlapRev]
    split
    · have h : acc + tok p ≤ ovl := by assumption
      have := ih (acc + tok p)
      have hM : max (acc + tok p) ovl = ovl := Nat.max_eq_right h
      rw [hM] at this
      calc acc + sumTok tok (p :: takeOverlapRev tok ovl rest (acc + tok p))
          = (acc + tok p) + sumTok tok (takeOverlapRev tok ovl rest (acc + tok p)) := by
            simp [sumTok]; ring
        _ ≤ ovl := this
        _ ≤ max acc ovl := Nat.le_max_right _ _
    · simp [sumTok, Nat.le_max_left]

theorem takeOverlap_sum_le (tok : String → Nat) (ovl : Nat) (chunk : List String) :
    sumTok tok (takeOverlap tok ovl chunk) ≤ ovl := by
  have := takeOverlapRev_sum tok ovl chunk.reverse 0
  simpa [takeOverlap, sumTok_reverse] using this

theorem chunkStepS_eq_map (tok : String → Nat) (cs o : Nat)
    (st : List (List String) × List String × Nat) (para : String) :
    chunkStepS tok cs o (st.1.map (joinSep "\n\n"), st.2) para =
      ((chunkStep tok cs o st para).1.map (joinSep "\n\n"),
       (chunkStep tok cs o st para).2) := by
  simp only [chunkStepS, chunkStep]
  split
  · simp
  · simp

theorem chunkFoldS_eq_map (tok : String → Nat) (cs o : Nat) :
    ∀ (paras : List String) (st : List (List String) × List String × Nat),
      paras.foldl (chunkStepS tok cs o) (st.1.map (joinSep "\n\n"), st.2) =
        ((paras.foldl (chunkStep tok cs o) st).1.map (joinSep "\n\n"),
         (paras.foldl (chunkStep tok cs o) st).2) := by
  intro paras
  induction paras with
  | nil => intro st; rfl
  | cons p ps ih =>
    intro st
    have h1 : (p :: ps).foldl (chunkStepS tok cs o) (st.1.map (joinSep "\n\n"), st.2) =
        ps.foldl (chunkStepS tok cs o)
          (chunkStepS tok cs o (st.1.map (joinSep "\n\n"), st.2) p) := rfl
    rw [h1, chunkStepS_eq_map tok cs o st p]
    exact ih (chunkStep tok cs o st p)

theorem chunk_text_eq_chunkParas (tok : String → Nat) (text : String) (cs o : Nat) :
    chunk_text tok text cs o = (chunkParas tok text cs o).map (joinSep "\n\n") := by
  simp only [chunk_text, chunkParas]
  have h0 : (([], [], 0) : List String × List String × Nat) =
      ((([], [], 0) : List (List String) × List String × Nat).1.map (joinSep "\n\n"),
       (([], [], 0) : List (List String) × List String × Nat).2) := rfl
  rw [h0, chunkFoldS_eq_map tok cs o]
  split
  · simp
  · simp

theorem foldr_max_mem (x : Nat) : ∀ (l : List Nat), x ∈ l → x ≤ l.foldr max 0 := by
  intro l
  induction l with
  | nil => intro h; cases h
  | cons y ys ih =>
    intro h
    rcases List.mem_cons.mp h with h | h
    · subst h; exact Nat.le_max_left _ _
    · exact (ih h).trans (Nat.le_max_right _ _)

theorem maxParaTok_mem (tok : String → Nat) (text : String) (p : String)
    (hp : p ∈ splitOnS "\n\n" text) : tok p ≤ maxParaTok tok text :=
  foldr_max_mem (tok p) _ (List.mem_map_of_mem tok hp)

theorem chunkFold_inv (tok : String → Nat) (cs o B : Nat) (hcs : cs ≤ B) :
    ∀ (paras : List String), (∀ p ∈ paras, o + tok p ≤ B) →
    ∀ (st : List (List String) × List String × Nat),
      st.2.2 = sumTok tok st.2.1 →
      sumTok tok st.2.1 ≤ B →
      (∀ c ∈ st.1, sumTok tok c ≤ B) →
      (paras.foldl (chunkStep tok cs o) st).2.2 =
          sumTok tok (paras.foldl (chunkStep tok cs o) st).2.1 ∧
      sumTok tok (paras.foldl (chunkStep tok cs o) st).2.1 ≤ B ∧
      (∀ c ∈ (paras.foldl (chunkStep tok cs o) st).1, sumTok tok c ≤ B) := by
  intro paras
  induction paras with
  | nil => intro _ st h1 h2 h3; exact ⟨h1, h2, h3⟩
  | cons p ps ih =>
    intro hM st h1 h2 h3
    have hMp : o + tok p ≤ B := hM p (List.mem_cons_self p ps)
    have hstep : (p :: ps).foldl (chunkStep tok cs o) st =
        ps.foldl (chunkStep tok cs o) (chunkStep tok cs o st p) := rfl
    rw [hstep]
    refine ih (fun q hq => hM q (List.mem_cons_of_mem p hq)) _ ?_ ?_ ?_
    · simp only [chunkStep]
      split
      · simp [sumTok_append, sumTok]
      · simp [sumTok_append, sumTok, h1]
    · simp only [chunkStep]
      split
      · rename_i hcond
        have hseed := takeOverlap_sum_le tok o st.2.1
        have : sumTok tok (takeOverlap tok o st.2.1 ++ [p]) ≤ o + tok p := by
          rw [sumTok_append]
          have hsingle : sumTok tok [p] = tok p := by simp [sumTok]
          omega
        exact this.trans hMp
      · rename_i hcond
        rw [not_and_or] at hcond
        rcases hcond with hle | hne
      
        · have hle2 : st.2.2 + tok p ≤ cs := Nat.le_of_not_lt hle
          have : sumTok tok (st.2.1 ++ [p]) = st.2.2 + tok p := by
            rw [sumTok_append, h1]; simp [sumTok]
          omega
        · have he : st.2.1 = [] := not_not.mp hne
          have : sumTok tok (st.2.1 ++ [p]) = st.2.2 + tok p := by
            rw [sumTok_append, h1]; simp [sumTok]
          have hz : st.2.2 = 0 := by rw [h1, he]; simp [sumTok]
          omega
    · simp only [chunkStep]
      split
      · intro c hc
        rcases List.mem_append.mp hc with hc | hc
        · exact h3 c hc
        · rcases List.mem_singleton.mp hc with rfl
          exact h2
      · exact h3

theorem chunkParas_bound (tok : String → Nat) (text : String) (cs o : Nat) :
    ∀ c ∈ chunkParas tok text cs o,
      sumTok tok c ≤ max cs (o + maxParaTok tok text) := by
  intro c hc
  set B := max cs (o + maxParaTok tok text) with hB
  have hcs : cs ≤ B := Nat.le_max_left _ _
  have hM : ∀ p ∈ splitOnS "\n\n" text, o + tok p ≤ B := by
    intro p hp
    have := maxParaTok_mem tok text p hp
    have h2 : o + tok p ≤ o + maxParaTok tok text := Nat.add_le_add_left this o
    exact h2.trans (Nat.le_max_right _ _)
  have hinv := chunkFold_inv tok cs o B hcs (splitOnS "\n\n" text) hM
    ([], [], 0) (by simp [sumTok]) (by simp [sumTok]) (by intro c hc; cases hc)
  simp only [chunkParas] at hc
  split at hc
  · rcases List.mem_append.mp hc with hc | hc
    · exact hinv.2.2 c hc
    · rcases List.mem_singleton.mp hc with rfl
      exact hinv.2.1
  · exact hinv.2.2 c hc

theorem contextParts_sum (mt : Nat) :
    ∀ (l : List SearchResult) (total : Nat),
      total + sumEst (contextParts mt l total) ≤ max mt total := by
  intro l
  induction l with
  | nil => intro total; simp [contextParts, sumEst, Nat.le_max_right]
  | cons r rest ih =>
    intro total
    simp only [contextParts]
    split
    · simp [sumEst, Nat.le_max_right]
    · rename_i hfit
      have hle : total + (formatBlock r).length / 4 ≤ mt := Nat.le_of_not_lt hfit
      have hsum : sumEst (formatBlock r :: contextParts mt rest (total + (formatBlock r).length / 4)) =
          (formatBlock r).length / 4 +
            sumEst (contextParts mt rest (total + (formatBlock r).length / 4)) := by
        simp [sumEst]
      have := ih (total + (formatBlock r).length / 4)
      have hmax : max mt (total + (formatBlock r).length / 4) = mt := Nat.max_eq_left hle
      rw [hmax] at this
      rw [hsum]
      have : total + ((formatBlock r).length / 4 +
          sumEst (contextParts mt rest (total + (formatBlock r).length / 4))) ≤ mt := by omega
      exact this.trans (Nat.le_max_left _ _)

/-! ## Claim theorems -/

/-- C8: for every token counter, overlap budget `T` and closed chunk, the
paragraphs carried into the next chunk (`takeOverlap`, the overlap loop of
`chunk_text`) are a suffix of the closed chunk, kept in order, with total
token count at most `T`; and the paragraph loop (`chunkStep`) seeds the next
chunk with exactly this carry-over followed by the triggering paragraph. -/
theorem C8_overlap_bound (tok : String → Nat) (T : Nat) (chunk : List String) :
    takeOverlap tok T chunk <:+ chunk ∧
    sumTok tok (takeOverlap tok T chunk) ≤ T ∧
    (∀ (cs : Nat) (st : List (List String) × List String × Nat) (para : String),
      st.2.2 + tok para > cs → st.2.1 ≠ [] →
      chunkStep tok cs T st para =
        (st.1 ++ [st.2.1], takeOverlap tok T st.2.1 ++ [para],
         sumTok tok (takeOverlap tok T st.2.1) + tok para)) := by
  refine ⟨takeOverlap_suffix tok T chunk, takeOverlap_sum_le tok T chunk, ?_⟩
  intro cs st para h1 h2
  simp only [chunkStep]
  rw [if_pos ⟨h1, h2⟩]

/-- Witness for C8 at the heuristic token counter, `T = 5`, chunk `[p1ex]`,
and the step closing that chunk on the arrival of `p2ex`. -/
theorem C8_overlap_bound_witness :
    takeOverlap count_tokens 5 [p1ex] <:+ [p1ex] ∧
    sumTok count_tokens (takeOverlap count_tokens 5 [p1ex]) ≤ 5 ∧
    chunkStep count_tokens 10 5 ([], [p1ex], 5) p2ex =
      ([[p1ex]], takeOverlap count_tokens 5 [p1ex] ++ [p2ex],
       sumTok count_tokens (takeOverlap count_tokens 5 [p1ex]) + count_tokens p2ex) :=
  ⟨(C8_overlap_bound count_tokens 5 [p1ex]).1,
   (C8_overlap_bound count_tokens 5 [p1ex]).2.1,
   (C8_overlap_bound count_tokens 5 [p1ex]).2.2 10 ([], [p1ex], 5) p2ex
     (by decide) (by decide)⟩

/-- C3 (amended): `chunk_text` is the blank-line paragraph chunking, and
every chunk's total token count is bounded by
`max chunk_size (overlap + largest single-paragraph token count)`; a chunk
may exceed `chunk_size` not only as a lone oversized paragraph but also when
overlap seeding and the triggering paragraph are combined. -/
theorem C3_chunk_token_bound (tok : String → Nat) (text : String) (chunk_size ovl : Nat) :
    chunk_text tok text chunk_size ovl =
      (chunkParas tok text chunk_size ovl).map (joinSep "\n\n") ∧
    ∀ c ∈ chunkParas tok text chunk_size ovl,
      sumTok tok c ≤ max chunk_size (ovl + maxParaTok tok text) :=
  ⟨chunk_text_eq_chunkParas tok text chunk_size ovl,
   chunkParas_bound tok text chunk_size ovl⟩

/-- Witness for C3 on the two-paragraph text `textEx` with
`chunk_size = 10`, `overlap = 5`: the second produced chunk holds both
paragraphs and meets the amended bound. -/
theorem C3_chunk_token_bound_witness :
    sumTok count_tokens [p1ex, p2ex] ≤ max 10 (5 + maxParaTok count_tokens textEx) :=
  (C3_chunk_token_bound count_tokens textEx 10 5).2 [p1ex, p2ex] (by decide)

/-- Counterexample to C3 as stated: with `chunk_size = 10`, `overlap = 5`
the second chunk of `textEx` counts 13 tokens, exceeding the budget, yet it
consists of two paragraphs of 5 and 8 tokens — neither alone exceeds the
budget, so it is not the claimed single-oversized-paragraph exception. -/
theorem C3_counterexample :
    chunk_text count_tokens textEx 10 5 = [p1ex, p1ex ++ "\n\n" ++ p2ex] ∧
    count_tokens (p1ex ++ "\n\n" ++ p2ex) = 13 ∧
    ¬ count_tokens (p1ex ++ "\n\n" ++ p2ex) ≤ 10 ∧
    splitOnS "\n\n" (p1ex ++ "\n\n" ++ p2ex) = [p1ex, p2ex] ∧
    count_tokens p1ex ≤ 10 ∧ count_tokens p2ex ≤ 10 := by decide

/-- C5 (amended): the running per-block `chars // 4` estimates of the blocks
accepted by `get_context_for_query` never sum past `max_tokens`, and the
sentinel string is returned when there are no candidates or the very first
block alone exceeds the budget.  (The returned string itself may estimate
above `max_tokens`, because the `"\n---\n\n"` join separators and the floor
rounding are not counted — see the counterexample.) -/
theorem C5_context_budget (results : List SearchResult) (max_tokens : Nat) :
    sumEst (contextParts max_tokens results 0) ≤ max_tokens ∧
    get_context_for_query [] max_tokens = "No relevant context found." ∧
    (∀ (r : SearchResult) (rest : List SearchResult), results = r :: rest →
      max_tokens < (formatBlock r).length / 4 →
      get_context_for_query results max_tokens = "No relevant context found.") := by
  refine ⟨?_, rfl, ?_⟩
  · have h := contextParts_sum max_tokens results 0
    simpa using h
  · intro r rest hres hbig
    subst hres
    have hcond : 0 + (formatBlock r).length / 4 > max_tokens := by omega
    have hparts : contextParts max_tokens (r :: rest) 0 = [] := by
      simp only [contextParts]
      rw [if_pos hcond]
    simp [get_context_for_query, hparts]

/-- Witness for C5: a single candidate whose 16-character block estimates to
4 tokens against a budget of 3 — nothing fits and the sentinel comes back. -/
theorem C5_context_budget_witness :
    sumEst (contextParts 3 [rTiny] 0) ≤ 3 ∧
    get_context_for_query [rTiny] 3 = "No relevant context found." :=
  ⟨(C5_context_budget [rTiny] 3).1,
   (C5_context_budget [rTiny] 3).2.2 rTiny [] rfl (by decide)⟩

/-- Counterexample to C5 as stated: two 16-character blocks (4 estimated
tokens each) fit a budget of 8, but the returned string includes the
uncounted `"\n---\n\n"` separator, totalling 38 characters — an estimate of
9, which exceeds `max_tokens = 8`. -/
theorem C5_counterexample :
    (get_context_for_query [rTiny, rTiny] 8).length / 4 = 9 ∧
    ¬ (get_context_for_query [rTiny, rTiny] 8).length / 4 ≤ 8 := by decide

/-- C4 (amended): a candidate with no parseable `created_at` keeps its raw
score; for a parseable one the adjusted score follows the
`raw * (0.7 + 0.3 * max(0, 1 - days_old/365))` formula, and whenever the
timestamp is not in the future (`days_old ≥ 0`) the adjusted score lies
between `0.7 * raw` and `raw` (endpoints taken in either order, which also
covers negative raw scores).  A future timestamp breaks the bound — see the
counterexample. -/
theorem C4_rerank_bounds (now : ℤ) (r : SearchResult) :
    (r.created_at = none → rerank_score now r = r.score) ∧
    ∀ c : ℤ, r.created_at = some c →
      rerank_score now r =
        r.score * (7/10 + 3/10 * max 0 (1 - ((now - c : ℤ) : ℚ) / 365)) ∧
      (0 ≤ now - c →
        min (7/10 * r.score) r.score ≤ rerank_score now r ∧
        rerank_score now r ≤ max (7/10 * r.score) r.score) := by
  constructor
  · intro h
    simp [rerank_score, h]
  · intro c hc
    have hr : rerank_score now r =
        r.score * (7/10 + 3/10 * max 0 (1 - ((now - c : ℤ) : ℚ) / 365)) := by
      simp [rerank_score, hc]
    refine ⟨hr, ?_⟩
    intro hd
    have hb0 : (0:ℚ) ≤ max 0 (1 - ((now - c : ℤ) : ℚ) / 365) := le_max_left _ _
    have hb1 : max 0 (1 - ((now - c : ℤ) : ℚ) / 365) ≤ 1 := by
      apply max_le
      · norm_num
      · have hq : (0:ℚ) ≤ ((now - c : ℤ) : ℚ) / 365 := by
          apply div_nonneg
          · exact_mod_cast hd
          · norm_num
        linarith
    set b := max 0 (1 - ((now - c : ℤ) : ℚ) / 365) with hbdef
    rw [hr]
    rcases le_total 0 r.score with hs | hs
    · rw [min_eq_left (by nlinarith), max_eq_right (by nlinarith)]
      constructor <;> nlinarith
    · rw [min_eq_right (by nlinarith), max_eq_left (by nlinarith)]
      constructor <;> nlinarith

/-- Witness for C4: a candidate created 10 days before `now`, scored 1,
satisfies the formula and both bounds. -/
theorem C4_rerank_bounds_witness :
    rerank_score 10 rPast =
      rPast.score * (7/10 + 3/10 * max 0 (1 - ((10 - 0 : ℤ) : ℚ) / 365)) ∧
    min (7/10 * rPast.score) rPast.score ≤ rerank_score 10 rPast ∧
    rerank_score 10 rPast ≤ max (7/10 * rPast.score) rPast.score := by
  have h := (C4_rerank_bounds 10 rPast).2 0 rfl
  exact ⟨h.1, (h.2 (by decide)).1, (h.2 (by decide)).2⟩

/-- Counterexample to C4 as stated: a candidate whose `created_at` lies 365
days in the future of `now = 0` gets `recency_boost = 2` and adjusted score
`1.3 > 1 = raw`, outside `[0.7 * raw, raw]`. -/
theorem C4_counterexample :
    rFut.score = 1 ∧ rerank_score 0 rFut = 13/10 ∧
    ¬ rerank_score 0 rFut ≤ rFut.score := by
  refine ⟨rfl, ?_, ?_⟩
  · norm_num [rerank_score, rFut]
  · norm_num [rerank_score, rFut]

/-- C9: re-ranking returns a permutation of its input with only the score
adjusted — no candidate is dropped, added or duplicated, and every other
field is preserved; `search_conversations` only truncates the re-ranked
list to `n` results. -/
theorem C9_rerank_permutation (now : ℤ) (results : List SearchResult)
    (hits : List RawHit) (n : Nat) :
    (rerank_results now results).Perm (results.map (adjustResult now)) ∧
    (rerank_results now results).length = results.length ∧
    (∀ r : SearchResult, (adjustResult now r).content = r.content ∧
      (adjustResult now r).platform = r.platform ∧
      (adjustResult now r).title = r.title ∧
      (adjustResult now r).created_at = r.created_at ∧
      (adjustResult now r).id = r.id) ∧
    search_conversations now hits n = (rerank_results now (formatResults hits)).take n ∧
    (search_conversations now hits n).length = min n hits.length := by
  refine ⟨sortStable_perm _ _, ?_, ?_, rfl, ?_⟩
  · rw [rerank_results, (sortStable_perm _ _).length_eq, List.length_map]
  · intro r
    exact ⟨rfl, rfl, rfl, rfl, rfl⟩
  · simp [search_conversations, List.length_take, rerank_results,
      (sortStable_perm _ _).length_eq, formatResults]

theorem gemini_parse_msg_role (created : Option ℚ) (m : GeminiJsonMsg) (msg : Message)
    (h : gemini_parse_msg created m = some msg) :
    msg.role = if strLower (gemini_role_str m) = "user" then MessageRole.user
      else MessageRole.assistant := by
  by_cases hc : m.contentKey.getD (m.textKey.getD "") = ""
  · simp [gemini_parse_msg, hc] at h
  · simp only [gemini_parse_msg] at h
    rw [if_neg hc] at h
    obtain rfl := Option.some.inj h
    rfl

theorem gemini_process_json_file_messages (stem : String) (d : GeminiJsonData)
    (c : Conversation) (h : gemini_process_json_file stem d = some c) :
    c.messages = (d.messagesKey.getD (d.historyKey.getD [])).filterMap
      (gemini_parse_msg d.createdAtKey) := by
  simp only [gemini_process_json_file] at h
  split at h
  · exact absurd h (by simp)
  · obtain rfl := Option.some.inj h
    rfl

/-- C10: in the Gemini JSON parser every message whose role/author string is
anything but `"user"` case-insensitively — including `"system"` — is
assigned the assistant role, so no conversation it produces ever contains a
system message. -/
theorem C10_gemini_role_collapse :
    (∀ (created : Option ℚ) (m : GeminiJsonMsg) (msg : Message),
      gemini_parse_msg created m = some msg →
      strLower (gemini_role_str m) ≠ "user" →
      msg.role = MessageRole.assistant) ∧
    (∀ (stem : String) (d : GeminiJsonData) (c : Conversation),
      gemini_process_json_file stem d = some c →
      ∀ msg ∈ c.messages, msg.role ≠ MessageRole.system) := by
  constructor
  · intro created m msg hparse hrole
    rw [gemini_parse_msg_role created m msg hparse, if_neg hrole]
  · intro stem d c hc msg hmem
    rw [gemini_process_json_file_messages stem d c hc] at hmem
    obtain ⟨m0, _, hp⟩ := List.mem_filterMap.mp hmem
    rw [gemini_parse_msg_role d.createdAtKey m0 msg hp]
    split
    · simp
    · simp

/-- Witness for C10: the message labelled `"system"` in `gjEx` is parsed
with the assistant role, and the conversation built from `gjEx` contains no
system message. -/
theorem C10_gemini_role_collapse_witness :
    (⟨MessageRole.assistant, "hi", none⟩ : Message).role = MessageRole.assistant ∧
    (∀ msg ∈ gjExConv.messages, msg.role ≠ MessageRole.system) :=
  ⟨C10_gemini_role_collapse.1 none ⟨some "system", none, some "hi", none⟩
      ⟨MessageRole.assistant, "hi", none⟩ (by decide) (by decide),
   C10_gemini_role_collapse.2 "s" gjEx gjExConv (by decide)⟩

/-- C6 (amended): the extractor emits one snippet per fenced region, in
message order then match order; the language is the fence tag or
`"unknown"` when the tag is absent; the `context` field is the string
`"From: "` followed by the conversation title (not the bare title). -/
theorem C6_snippets (conv : Conversation) :
    extract_code_snippets conv =
      (conv.messages.flatMap (fun m => findCodeBlocks m.content)).map
        (fun pr => (⟨stripS pr.2, if pr.1 = "" then "unknown" else pr.1,
          "From: " ++ conv.title, conv.conversation_id, conv.platform⟩ : CodeSnippet)) ∧
    ∀ s ∈ extract_code_snippets conv, s.context = "From: " ++ conv.title := by
  have h1 : extract_code_snippets conv =
      (conv.messages.flatMap (fun m => findCodeBlocks m.content)).map (snippetOfMatch conv) := by
    rw [extract_code_snippets, List.map_flatMap]
  constructor
  · rw [h1]
    rfl
  · intro s hs
    rw [h1] at hs
    obtain ⟨pr, _, rfl⟩ := List.mem_map.mp hs
    rfl

/-- Witness for C6: a conversation whose text holds a `python`-tagged and an
untagged fence yields exactly two snippets with languages `"python"` and
`"unknown"`, each carrying `context = "From: T2"`. -/
theorem C6_snippets_witness :
    extract_code_snippets convT2 =
      [⟨"print(1)", "python", "From: T2", "id2", ChatPlatform.gemini⟩,
       ⟨"plain", "unknown", "From: T2", "id2", ChatPlatform.gemini⟩] ∧
    (⟨"print(1)", "python", "From: T2", "id2", ChatPlatform.gemini⟩ : CodeSnippet).context =
      "From: " ++ convT2.title :=
  ⟨((C6_snippets convT2).1).trans (by decide),
   (C6_snippets convT2).2 _ (by decide)⟩

/-- Counterexample to C6 as stated: the snippet extracted from a
conversation titled `"T"` has context `"From: T"`, which is not the
conversation's title. -/
theorem C6_counterexample :
    (extract_code_snippets convT).map (fun s => s.context) = ["From: T"] ∧
    ¬ ("From: T" = convT.title) := by decide

/-- C7: with caching enabled, a text not yet in the cache (and whose
provider vector is non-empty, as real embedding vectors are), two successive
`generate_embeddings([text])` calls make exactly one provider call in total
— the second call is served from the cache — and both return the same
single vector. -/
theorem C7_cache_idempotent (emb : String → List ℚ) (model t : String)
    (cache0 : List (String × List ℚ)) (k : Nat)
    (hmiss : cachedVec cache0 (cache_key model t) = none)
    (hne : emb t ≠ []) :
    (generate_embeddings emb model [t] true ⟨cache0, k⟩).1 = [emb t] ∧
    (generate_embeddings emb model [t] true ⟨cache0, k⟩).2.calls = k + 1 ∧
    (generate_embeddings emb model [t] true
        (generate_embeddings emb model [t] true ⟨cache0, k⟩).2).1 = [emb t] ∧
    (generate_embeddings emb model [t] true
        (generate_embeddings emb model [t] true ⟨cache0, k⟩).2).2.calls = k + 1 := by
  have h1 : generate_embeddings emb model [t] true ⟨cache0, k⟩ =
      ([emb t], ⟨(cache_key model t, emb t) :: cache0, k + 1⟩) := by
    simp [generate_embeddings, embedScan, embedMisses, hmiss]
  have h2 : cachedVec ((cache_key model t, emb t) :: cache0) (cache_key model t) =
      some (emb t) := by
    simp [cachedVec, List.lookup, hne]
  have h3 : generate_embeddings emb model [t] true
      ⟨(cache_key model t, emb t) :: cache0, k + 1⟩ =
      ([emb t], ⟨(cache_key model t, emb t) :: cache0, k + 1⟩) := by
    simp [generate_embeddings, embedScan, embedMisses, h2]
  refine ⟨?_, ?_, ?_, ?_⟩
  · rw [h1]
  · rw [h1]
  · rw [h1]
    simpa using congrArg Prod.fst h3
  · rw [h1]
    simpa using congrArg (fun p => (Prod.snd p).calls) h3

/-- Witness for C7 on the constant provider `embWit`, the empty cache and
the text `"hello"`. -/
theorem C7_cache_idempotent_witness :
    (generate_embeddings embWit "m" ["hello"] true ⟨[], 0⟩).1 = [embWit "hello"] ∧
    (generate_embeddings embWit "m" ["hello"] true ⟨[], 0⟩).2.calls = 0 + 1 ∧
    (generate_embeddings embWit "m" ["hello"] true
        (generate_embeddings embWit "m" ["hello"] true ⟨[], 0⟩).2).1 = [embWit "hello"] ∧
    (generate_embeddings embWit "m" ["hello"] true
        (generate_embeddings embWit "m" ["hello"] true ⟨[], 0⟩).2).2.calls = 0 + 1 :=
  C7_cache_idempotent embWit "m" "hello" [] 0 rfl (by decide)

theorem option_guard_messages (M : List Message) (cid : String) (pf : ChatPlatform)
    (title : String) (ca ua : Option ℚ) (c : Conversation)
    (h : (if M = [] then none else some (⟨cid, pf, title, M, ca, ua⟩ : Conversation)) = some c) :
    c.messages ≠ [] := by
  split at h
  · exact absurd h (by simp)
  · rename_i hne
    obtain rfl := Option.some.inj h
    exact hne

/-- C1 (amended): the Gemini JSON, Grok and Antigravity parsers never return
a zero-message Conversation, but the ChatGPT processor appends one
Conversation per export record unconditionally — a record whose mapping
nodes carry no message contributes a Conversation with zero messages (see
the counterexample). -/
theorem C1_zero_message_conversations :
    (∀ records : List CGRecord,
      (chatgpt_process_records records).length = records.length) ∧
    (∀ (d : GrokData) (f : String) (c : Conversation),
      grok_parse_conversation d f = some c → c.messages ≠ []) ∧
    (∀ (stem : String) (d : GeminiJsonData) (c : Conversation),
      gemini_process_json_file stem d = some c → c.messages ≠ []) ∧
    (∀ (d : AgDir) (c : Conversation),
      ag_process_dir d = some c → c.messages ≠ []) := by
  refine ⟨?_, ?_, ?_, ?_⟩
  · intro records
    exact List.length_map records chatgpt_parse_conversation
  · intro d f c h
    simp only [grok_parse_conversation] at h
    exact option_guard_messages _ _ _ _ _ _ c h
  · intro stem d c h
    simp only [gemini_process_json_file] at h
    exact option_guard_messages _ _ _ _ _ _ c h
  · intro d c h
    simp only [ag_process_dir] at h
    exact option_guard_messages _ _ _ _ _ _ c h

/-- Witness for C1: the two-record ChatGPT batch produces two conversations,
and the concrete Grok, Gemini and Antigravity parses produce conversations
with at least one message. -/
theorem C1_zero_message_conversations_witness :
    (chatgpt_process_records [cgRec1, cgRec2]).length = [cgRec1, cgRec2].length ∧
    gdExConv.messages ≠ [] ∧ gjExConv.messages ≠ [] ∧ agExConv.messages ≠ [] :=
  ⟨C1_zero_message_conversations.1 [cgRec1, cgRec2],
   C1_zero_message_conversations.2.1 gdEx "f.json" gdExConv (by decide),
   C1_zero_message_conversations.2.2.1 "s" gjEx gjExConv (by decide),
   C1_zero_message_conversations.2.2.2 agEx agExConv (by decide)⟩

/-- Counterexample to C1 as stated: of the two ChatGPT export records —
`cgRec1` with 3 valid message nodes and `cgRec2` whose only mapping node
carries no message — `process` keeps both conversations (not exactly one),
the second with zero messages. -/
theorem C1_counterexample :
    (chatgpt_process_records [cgRec1, cgRec2]).map (fun c => c.messages.length) = [3, 0] ∧
    (chatgpt_process_records [cgRec1, cgRec2]).length ≠ 1 := by decide

/-- C2 (amended): the Grok and Antigravity processors return an empty list
for a path that does not exist, and the Gemini directory walk of a missing
path finds no files and returns an empty list; the ChatGPT processor has no
existence guard and instead raises (`FileNotFoundError` propagates, the
`.error` case). -/
theorem C2_missing_path :
    (∀ (disk : List (String × List CGRecord)) (path : String),
      List.lookup path disk = none → chatgpt_process disk path = Except.error ()) ∧
    (∀ (disk : List (String × List (String × GrokData))) (path : String),
      List.lookup path disk = none → grok_process disk path = []) ∧
    (∀ (disk : List (String × List (String × GeminiJsonData))) (path : String),
      List.lookup path disk = none → gemini_process disk path = []) ∧
    (∀ (disk : List (String × List AgDir)) (path : String),
      List.lookup path disk = none → antigravity_process disk path = []) := by
  refine ⟨?_, ?_, ?_, ?_⟩
  · intro disk path h
    simp [chatgpt_process, h]
  · intro disk path h
    simp [grok_process, h]
  · intro disk path h
    simp [gemini_process, h]
  · intro disk path h
    simp [antigravity_process, h]

/-- Witness for C2 on empty filesystems, where every lookup misses. -/
theorem C2_missing_path_witness :
    chatgpt_process ([] : List (String × List CGRecord)) "conversations.json" =
      Except.error () ∧
    grok_process ([] : List (String × List (String × GrokData))) "export.zip" = [] ∧
    gemini_process ([] : List (String × List (String × GeminiJsonData))) "takeout" = [] ∧
    antigravity_process ([] : List (String × List AgDir)) "brain" = [] :=
  ⟨C2_missing_path.1 [] "conversations.json" rfl,
   C2_missing_path.2.1 [] "export.zip" rfl,
   C2_missing_path.2.2.1 [] "takeout" rfl,
   C2_missing_path.2.2.2 [] "brain" rfl⟩

/-- Counterexample to C2 as stated: the ChatGPT processor on a missing path
raises rather than returning an empty sequence. -/
theorem C2_counterexample :
    chatgpt_process ([] : List (String × List CGRecord)) "conversations.json" =
      Except.error () ∧
    chatgpt_process ([] : List (String × List CGRecord)) "conversations.json" ≠
      Except.ok [] := by
  refine ⟨rfl, ?_⟩
  intro h
  exact Except.noConfusion h
